import Mathlib

/-!
# slow-gold clients: `slowgold_probe.cpp` and `slowgold_submit.cpp`

A shallow embedding of the two client programs.  Text is `String`/`List Char` (one `Char`
per C `char`), `uint64_t` values are `Nat`, and each `main` is a function from the
outside world (`World`: the environment variables and what the standard library and the
proof-system library hand back) to an exit status and the ordered list of effects the
program's own statements perform (`Event`).  The proof-system library (emp-zk) is not part
of the repository: its calls appear as events, the `IntFp` values it hands out are kept as
the expression the calls built, and the proof field is a parameter (`IntFp.eval`).
-/

namespace SlowGold

/-! ## `strtoull` (ISO C11/C17, "C" locale; no `0b` prefix) -/

/-- The largest `unsigned long long`. -/
def ULLONG_MAX : Nat := 2 ^ 64 - 1

/-- The `isspace` class of the "C" locale: space, `\t`, `\n`, `\v`, `\f`, `\r`. -/
def isspace (c : Char) : Bool :=
  c = ' ' || c = '\t' || c = '\n' || c = '\x0b' || c = '\x0c' || c = '\r'

/-- The value of `c` as a digit: `0`-`9`, then letters of either case from ten upwards. -/
def digitValue (c : Char) : Option Nat :=
  if '0' ≤ c ∧ c ≤ '9' then some (c.toNat - '0'.toNat)
  else if 'a' ≤ c ∧ c ≤ 'z' then some (c.toNat - 'a'.toNat + 10)
  else if 'A' ≤ c ∧ c ≤ 'Z' then some (c.toNat - 'A'.toNat + 10)
  else none

/-- The digit loop of `strtoull`: consumes the longest run of digits below `base`.  The
accumulator is `none` until a digit has been consumed (no conversion) and is not
truncated; the caller saturates. -/
def scanDigits (base : Nat) : List Char → Option Nat → Option Nat
  | [], acc => acc
  | c :: cs, acc =>
    match digitValue c with
    | some d => if d < base then scanDigits base cs (some (acc.getD 0 * base + d)) else acc
    | none => acc

/-- The optional sign of the subject sequence: whether it is a minus, and what follows. -/
def takeSign : List Char → Bool × List Char
  | '-' :: t => (true, t)
  | '+' :: t => (false, t)
  | s => (false, s)

/-- The base `strtoull` converts in and where the digits start: `0x`/`0X` is skipped when
`base` is 0 or 16 and makes it 16; otherwise base 0 becomes 8 after a leading `0` and 10
after anything else. -/
def settleBase (base : Nat) : List Char → Nat × List Char
  | '0' :: x :: t =>
    if (base = 0 ∨ base = 16) ∧ (x = 'x' ∨ x = 'X') then (16, t)
    else if base = 0 then (8, '0' :: x :: t) else (base, '0' :: x :: t)
  | '0' :: t => if base = 0 then (8, '0' :: t) else (base, '0' :: t)
  | s => if base = 0 then (10, s) else (base, s)

/-- The call `strtoull(nptr, nullptr, base)` for `base` 0 or 2..36: skip white space, take
an optional sign, settle the base, convert the digits.  No digits gives 0, a value above
`ULLONG_MAX` gives `ULLONG_MAX`, and a minus sign negates modulo `2^64`.  The string ends
at its first NUL, which is neither space, sign nor digit. -/
def strtoull (nptr : List Char) (base : Nat) : Nat :=
  let s := nptr.dropWhile isspace
  let (negative, s) := takeSign s
  let (base, s) := settleBase base s
  match scanDigits base s none with
  | none => 0
  | some i =>
    if i > ULLONG_MAX then ULLONG_MAX
    else if negative then (2 ^ 64 - i) % 2 ^ 64 else i

/-! ## `parse_u64_csv` (slowgold_submit.cpp) -/

/-- One call `getline(ss, item, delim)` on a string stream whose unread part is the
argument: `none` when the call fails (nothing left to extract), otherwise the item read and
the unread part left behind, the delimiter consumed. -/
def getline (delim : Char) : List Char → Option (List Char × List Char)
  | [] => none
  | c :: cs =>
    some ((c :: cs).takeWhile (· != delim), ((c :: cs).dropWhile (· != delim)).drop 1)

/-- The loop `while (getline(ss, item, ',')) { if (item.empty()) continue;
out.push_back(strtoull(item.c_str(), nullptr, 0)); }` from the unread part `ss` of the
stream and the vector `out` built so far. -/
def parseLoop (ss : List Char) (out : List Nat) : List Nat :=
  match h : getline ',' ss with
  | none => out
  | some (item, rest) =>
    if item.isEmpty then parseLoop rest out
    else parseLoop rest (out ++ [strtoull item 0])
termination_by ss.length
decreasing_by
  all_goals
    cases ss with
    | nil => simp [getline] at h
    | cons c cs =>
      simp only [getline, Option.some.injEq, Prod.mk.injEq] at h
      rw [← h.2]
      have h1 := (List.dropWhile_sublist (l := cs) (fun x => x != ',')).length_le
      by_cases hc : (c != ',') = true
      · simp only [List.dropWhile_cons, hc, if_true, List.length_drop, List.length_cons]
        omega
      · simp [List.dropWhile_cons, hc]

/-- The function `parse_u64_csv`. -/
def parse_u64_csv (s : String) : List Nat := parseLoop s.toList []

/-! ## The outside world and the effects of a run -/

/-- The party constants of the proof-system library. -/
inductive Party
  | PUBLIC
  | ALICE
  | BOB
  deriving DecidableEq, Repr

/-- An `IntFp` value, kept as the expression that the library calls built: `input k v p` is
the result of the `k`-th (from 0) construction `IntFp(v, p)` with a party `p` other than
`PUBLIC`, `pub v` the result of `IntFp(v, PUBLIC)`, the rest the results of `operator+`,
`operator*` and `negate()`. -/
inductive IntFp
  | input (k : Nat) (value : Nat) (party : Party)
  | pub (value : Nat)
  | add (lhs rhs : IntFp)
  | mul (lhs rhs : IntFp)
  | negate (x : IntFp)
  deriving DecidableEq, Repr

/-- The constructor `IntFp(input, party)`; `k` counts the non-public values built before. -/
def IntFp.new (input : Nat) (party : Party) (k : Nat) : IntFp :=
  if party = Party.PUBLIC then IntFp.pub input else IntFp.input k input party

/-- The field element an `IntFp` holds, in a commutative ring `F` standing for the proof
field, when the `k`-th secret input holds `ρ k` and public constants are cast into `F`. -/
def IntFp.eval {F : Type} [CommRing F] (ρ : Nat → F) : IntFp → F
  | .input k _ _ => ρ k
  | .pub c => (c : F)
  | .add x y => IntFp.eval ρ x + IntFp.eval ρ y
  | .mul x y => IntFp.eval ρ x * IntFp.eval ρ y
  | .negate x => - IntFp.eval ρ x

/-- One effect performed by a statement of a program, in program order. -/
inductive Event
  /-- One statement writing `s` to `cerr`. -/
  | cerr (s : String)
  /-- One statement writing `s` to `cout`. -/
  | cout (s : String)
  /-- The extraction `cin >> X`, which stored `v`. -/
  | cin_u64 (v : Nat)
  /-- The statement `ios[i] = new BoolIO<NetIO>(new NetIO(address, port), flag)`. -/
  | new_ios (i : Nat) (address : Option String) (port : Nat) (flag : Bool)
  /-- The call `setup_zk_arith<BoolIO<NetIO>>(ios, threads, party)`. -/
  | setup_zk_arith (ios : List Nat) (threads : Nat) (party : Party)
  /-- A library call (constructor, `operator+`, `operator*`, `negate`) returning `v`. -/
  | intfp (v : IntFp)
  /-- The call `ZKFpExec::zk_exec->send_data(&value, nbytes)`. -/
  | zk_send_data (value : Nat) (nbytes : Nat)
  /-- The call `batch_reveal_check_zero(values, len)`. -/
  | batch_reveal_check_zero (values : List IntFp) (len : Nat)
  /-- The call `finalize_zk_arith<BoolIO<NetIO>>()`. -/
  | finalize_zk_arith
  /-- A call of one of the `slowgold_last_*` accessors, which returned `v`. -/
  | accessor (name : String) (v : Nat)
  /-- The call `ios[i]->io->send_data(&value, nbytes)`. -/
  | send_data (i : Nat) (value : Nat) (nbytes : Nat)
  /-- The call `ios[i]->io->recv_data(buffer, nbytes)`. -/
  | recv_data (i : Nat) (nbytes : Nat)
  /-- The statements `delete ios[i]->io; delete ios[i];`. -/
  | delete_ios (i : Nat)
  deriving DecidableEq, Repr

/-- What a run takes from outside the program: the environment, the value `cin >> X`
stores, the bytes `recv_data` delivers for a requested length, and the values the
library's `slowgold_last_*` accessors return (all `uint64_t`). -/
structure World where
  getenv : String → Option String
  cin_u64 : Nat
  recv_data : Nat → String
  slowgold_last_delta_u64 : Nat
  slowgold_last_mulcheck_seed : Nat
  slowgold_last_mulcheck_U : Nat
  slowgold_last_mulcheck_V : Nat
  slowgold_last_mulcheck_ka : Nat
  slowgold_last_mulcheck_kb : Nat
  slowgold_last_mulcheck_kc : Nat

/-- The result of running a `main`: its return value and its effects in order. -/
structure Run where
  status : Int
  trace : List Event
  deriving DecidableEq, Repr

/-- The constant `threads` of both programs. -/
def threads : Nat := 1

/-- The size `sizeof(uint64_t)`. -/
def sizeof_uint64_t : Nat := 8

/-! ## `main` of slowgold_probe.cpp -/

/-- The loop `for (int i = 0; i < 10; i++) { array1.push_back(IntFp(0, ALICE));
array2.push_back(IntFp(0, ALICE)); }` of slowgold_probe.cpp: the two vectors and the
library calls made, in order. -/
def probe_arrays : List IntFp × List IntFp × List Event :=
  (List.range 10).foldl
    (fun (st : List IntFp × List IntFp × List Event) _ =>
      let v1 := IntFp.new 0 Party.ALICE (st.1.length + st.2.1.length)
      let array1 := st.1 ++ [v1]
      let v2 := IntFp.new 0 Party.ALICE (array1.length + st.2.1.length)
      let array2 := st.2.1 ++ [v2]
      (array1, array2, st.2.2 ++ [Event.intfp v1, Event.intfp v2]))
    ([], [], [])

/-- The statements `IntFp acc1 = IntFp(1, PUBLIC); IntFp acc2 = IntFp(1, PUBLIC);
for (int i = 0; i < 10; i++) { acc1 = acc1 * (array1[i] + X); acc2 = acc2 * (array2[i] + X); }`
of slowgold_probe.cpp: the two accumulators and the library calls made, in order.  The
operand `X` is converted by `IntFp(X)` (party `PUBLIC`) before `operator+`.  Both vectors
hold ten elements when `main` calls this, so the default of `getD` is never taken. -/
def probe_chain (X : Nat) (array1 array2 : List IntFp) : IntFp × IntFp × List Event :=
  let acc1 := IntFp.new 1 Party.PUBLIC 0
  let acc2 := IntFp.new 1 Party.PUBLIC 0
  (List.range 10).foldl
    (fun (st : IntFp × IntFp × List Event) i =>
      let x1 := IntFp.new X Party.PUBLIC 0
      let s1 := IntFp.add (array1.getD i (IntFp.pub 0)) x1
      let acc1 := IntFp.mul st.1 s1
      let x2 := IntFp.new X Party.PUBLIC 0
      let s2 := IntFp.add (array2.getD i (IntFp.pub 0)) x2
      let acc2 := IntFp.mul st.2.1 s2
      (acc1, acc2, st.2.2 ++ [Event.intfp x1, Event.intfp s1, Event.intfp acc1,
                              Event.intfp x2, Event.intfp s2, Event.intfp acc2]))
    (acc1, acc2, [Event.intfp acc1, Event.intfp acc2])

/-- The function `main` of the probe program. -/
def probe_main (w : World) : Run :=
  let party := Party.BOB
  let host := match w.getenv "SLOWGOLD_HOST" with
    | some h => h
    | none => "34.169.138.235"
  let port := 31183
  -- uint64_t X = 0; if (getenv("SLOWGOLD_X")) X = strtoull(xs, nullptr, 0); else cin >> X;
  let Xtr : Nat × List Event := match w.getenv "SLOWGOLD_X" with
    | some xs => (strtoull xs.toList 0, [])
    | none => (w.cin_u64, [Event.cin_u64 w.cin_u64])
  let X := Xtr.1
  let tr := Xtr.2
  -- ios[i] = new BoolIO<NetIO>(new NetIO(party == ALICE ? nullptr : host, port), party == ALICE);
  let ios := List.range threads
  let tr := tr ++ ios.map (fun i =>
    Event.new_ios i (if party = Party.ALICE then none else some host) port (party = Party.ALICE))
  let tr := tr ++ [Event.setup_zk_arith ios threads party]
  let arrays := probe_arrays
  let array1 := arrays.1
  let array2 := arrays.2.1
  let tr := tr ++ arrays.2.2
  let tr := tr ++ [Event.zk_send_data X sizeof_uint64_t]
  let accs := probe_chain X array1 array2
  let acc1 := accs.1
  let acc2 := accs.2.1
  let tr := tr ++ accs.2.2
  -- IntFp final_zero = acc1 + acc2.negate(); batch_reveal_check_zero(&final_zero, 1);
  let n2 := IntFp.negate acc2
  let final_zero := IntFp.add acc1 n2
  let tr := tr ++ [Event.intfp n2, Event.intfp final_zero,
                   Event.batch_reveal_check_zero [final_zero] 1]
  let tr := tr ++ [Event.finalize_zk_arith]
  let delta := w.slowgold_last_delta_u64
  let seed := w.slowgold_last_mulcheck_seed
  let U := w.slowgold_last_mulcheck_U
  let V := w.slowgold_last_mulcheck_V
  let ka := w.slowgold_last_mulcheck_ka
  let kb := w.slowgold_last_mulcheck_kb
  let kc := w.slowgold_last_mulcheck_kc
  let tr := tr ++ [Event.accessor "slowgold_last_delta_u64" delta,
                   Event.accessor "slowgold_last_mulcheck_seed" seed,
                   Event.accessor "slowgold_last_mulcheck_U" U,
                   Event.accessor "slowgold_last_mulcheck_V" V,
                   Event.accessor "slowgold_last_mulcheck_ka" ka,
                   Event.accessor "slowgold_last_mulcheck_kb" kb,
                   Event.accessor "slowgold_last_mulcheck_kc" kc]
  let tr := tr ++ [Event.cout ("\x7b"
    ++ "\"X\":" ++ toString X ++ ","
    ++ "\"delta\":" ++ toString delta ++ ","
    ++ "\"seed\":" ++ toString seed ++ ","
    ++ "\"U\":" ++ toString U ++ ","
    ++ "\"V\":" ++ toString V ++ ","
    ++ "\"ka\":" ++ toString ka ++ ","
    ++ "\"kb\":" ++ toString kb ++ ","
    ++ "\"kc\":" ++ toString kc ++ "\x7d"
    ++ "\n")]
  let tr := tr ++ ios.map Event.delete_ios
  ⟨0, tr⟩

/-! ## `main` of slowgold_submit.cpp -/

/-- The loop `for (int i = 0; i < 10; i++) { array1.push_back(IntFp(0, ALICE));
array2.push_back(IntFp(0, ALICE)); }` of slowgold_submit.cpp: the two vectors and the
library calls made, in order. -/
def submit_arrays : List IntFp × List IntFp × List Event :=
  (List.range 10).foldl
    (fun (st : List IntFp × List IntFp × List Event) _ =>
      let v1 := IntFp.new 0 Party.ALICE (st.1.length + st.2.1.length)
      let array1 := st.1 ++ [v1]
      let v2 := IntFp.new 0 Party.ALICE (array1.length + st.2.1.length)
      let array2 := st.2.1 ++ [v2]
      (array1, array2, st.2.2 ++ [Event.intfp v1, Event.intfp v2]))
    ([], [], [])

/-- The statements `IntFp acc1 = IntFp(1, PUBLIC); IntFp acc2 = IntFp(1, PUBLIC);
for (int i = 0; i < 10; i++) { acc1 = acc1 * (array1[i] + X); acc2 = acc2 * (array2[i] + X); }`
of slowgold_submit.cpp: the two accumulators and the library calls made, in order.  The
operand `X` is converted by `IntFp(X)` (party `PUBLIC`) before `operator+`.  Both vectors
hold ten elements when `main` calls this, so the default of `getD` is never taken. -/
def submit_chain (X : Nat) (array1 array2 : List IntFp) : IntFp × IntFp × List Event :=
  let acc1 := IntFp.new 1 Party.PUBLIC 0
  let acc2 := IntFp.new 1 Party.PUBLIC 0
  (List.range 10).foldl
    (fun (st : IntFp × IntFp × List Event) i =>
      let x1 := IntFp.new X Party.PUBLIC 0
      let s1 := IntFp.add (array1.getD i (IntFp.pub 0)) x1
      let acc1 := IntFp.mul st.1 s1
      let x2 := IntFp.new X Party.PUBLIC 0
      let s2 := IntFp.add (array2.getD i (IntFp.pub 0)) x2
      let acc2 := IntFp.mul st.2.1 s2
      (acc1, acc2, st.2.2 ++ [Event.intfp x1, Event.intfp s1, Event.intfp acc1,
                              Event.intfp x2, Event.intfp s2, Event.intfp acc2]))
    (acc1, acc2, [Event.intfp acc1, Event.intfp acc2])

/-- The loop `for (int i = 0; i < 10; i++) { uint64_t g = guesses[i];
ios[0]->io->send_data(&g, sizeof(uint64_t)); }` of slowgold_submit.cpp.  `main` reaches it
only with ten guesses, so the default of `getD` is never taken. -/
def submit_sends (guesses : List Nat) : List Event :=
  (List.range 10).foldl
    (fun (tr : List Event) i =>
      let g := guesses.getD i 0
      tr ++ [Event.send_data 0 g sizeof_uint64_t])
    []

/-- The function `main` of the submit program. -/
def submit_main (w : World) : Run :=
  let tr := [Event.cerr "[submit] start\n"]
  match w.getenv "SLOWGOLD_GUESSES" with
  | none => ⟨2, tr ++ [Event.cerr "need SLOWGOLD_GUESSES=comma,separated,10,values\n"]⟩
  | some gs =>
  let guesses := parse_u64_csv gs
  if guesses.length ≠ 10 then
    ⟨2, tr ++ [Event.cerr ("need exactly 10 guesses, got " ++ toString guesses.length ++ "\n")]⟩
  else
  -- uint64_t X = 0; if (getenv("SLOWGOLD_X")) X = strtoull(xs, nullptr, 0);
  let X := match w.getenv "SLOWGOLD_X" with
    | some xs => strtoull xs.toList 0
    | none => 0
  let party := Party.BOB
  let host := match w.getenv "SLOWGOLD_HOST" with
    | some h => h
    | none => "34.169.138.235"
  let port := 31183
  let ios := List.range threads
  let tr := tr ++ ios.map (fun i =>
    Event.new_ios i (if party = Party.ALICE then none else some host) port (party = Party.ALICE))
  let tr := tr ++ [Event.cerr "[submit] netio ready\n"]
  let tr := tr ++ [Event.setup_zk_arith ios threads party]
  let tr := tr ++ [Event.cerr "[submit] setup done\n"]
  let arrays := submit_arrays
  let array1 := arrays.1
  let array2 := arrays.2.1
  let tr := tr ++ arrays.2.2
  let tr := tr ++ [Event.zk_send_data X sizeof_uint64_t]
  let accs := submit_chain X array1 array2
  let acc1 := accs.1
  let acc2 := accs.2.1
  let tr := tr ++ accs.2.2
  -- IntFp final_zero = acc1 + acc2.negate(); batch_reveal_check_zero(&final_zero, 1);
  let n2 := IntFp.negate acc2
  let final_zero := IntFp.add acc1 n2
  let tr := tr ++ [Event.intfp n2, Event.intfp final_zero,
                   Event.batch_reveal_check_zero [final_zero] 1]
  let tr := tr ++ [Event.finalize_zk_arith]
  let tr := tr ++ [Event.cerr "[submit] zkp done\n"]
  let tr := tr ++ submit_sends guesses
  let tr := tr ++ [Event.cerr "[submit] guesses sent\n"]
  -- string flag; flag.resize(46); ios[0]->io->recv_data(&flag[0], 46); cout << flag;
  let tr := tr ++ [Event.cerr "[submit] waiting flag...\n"]
  let flag := w.recv_data 46
  let tr := tr ++ [Event.recv_data 0 46]
  let tr := tr ++ [Event.cerr "[submit] flag recv\n"]
  let tr := tr ++ [Event.cout flag]
  let tr := tr ++ ios.map Event.delete_ios
  ⟨0, tr⟩

/-! ## Reading a trace -/

/-- Everything written to standard output, in order. -/
def stdoutOf (tr : List Event) : String :=
  String.join (tr.filterMap fun e => match e with
    | Event.cout s => some s
    | _ => none)

/-- Everything written to the error stream, in order. -/
def stderrOf (tr : List Event) : String :=
  String.join (tr.filterMap fun e => match e with
    | Event.cerr s => some s
    | _ => none)

/-- Whether an event is a raw transfer on a connection (`send_data` or `recv_data` called
on `ios[i]->io` by the program itself). -/
def Event.isRaw : Event → Bool
  | .send_data _ _ _ => true
  | .recv_data _ _ => true
  | _ => false

/-- Whether an event is a proof-system operation issued between setup and finalize: a call
producing an `IntFp`, the send of the challenge, or the zero check. -/
def Event.isZkOp : Event → Bool
  | .intfp _ => true
  | .zk_send_data _ _ => true
  | .batch_reveal_check_zero _ _ => true
  | _ => false

/-- Whether an event is the call `setup_zk_arith`. -/
def Event.isSetup : Event → Bool
  | .setup_zk_arith _ _ _ => true
  | _ => false

/-- Whether an event is a write to the error stream. -/
def Event.isCerr : Event → Bool
  | .cerr _ => true
  | _ => false

/-- Whether an event opens a network connection. -/
def Event.isOpen : Event → Bool
  | .new_ios _ _ _ _ => true
  | _ => false

/-- The raw transfers of a trace, in order. -/
def rawOps (tr : List Event) : List Event := tr.filter Event.isRaw

/-- The proof-system operations of a trace that lie after the first `setup_zk_arith` and
before the next `finalize_zk_arith`, in order. -/
def zk_section (tr : List Event) : List Event :=
  ((((tr.dropWhile (fun e => !e.isSetup)).drop 1).takeWhile
    (fun e => e != Event.finalize_zk_arith))).filter Event.isZkOp

/-- The challenge values sent with `ZKFpExec::zk_exec->send_data`, in order. -/
def sentChallenges (tr : List Event) : List Nat :=
  tr.filterMap fun e => match e with
    | Event.zk_send_data x _ => some x
    | _ => none

/-- The values sent raw with `ios[i]->io->send_data`, in order. -/
def sentGuesses (tr : List Event) : List Nat :=
  tr.filterMap fun e => match e with
    | Event.send_data _ g _ => some g
    | _ => none

/-- The arguments of the `batch_reveal_check_zero` calls, in order. -/
def zeroChecks (tr : List Event) : List (List IntFp × Nat) :=
  tr.filterMap fun e => match e with
    | Event.batch_reveal_check_zero vs n => some (vs, n)
    | _ => none

/-- The extractions from standard input, in order. -/
def stdinReads (tr : List Event) : List Nat :=
  tr.filterMap fun e => match e with
    | Event.cin_u64 v => some v
    | _ => none

/-- The field values of the twenty secret inputs when `array1` holds `a` and `array2` holds
`b`: `array1[i]` is input `2 i` and `array2[i]` is input `2 i + 1`. -/
def secrets {F : Type} [CommRing F] (a b : List F) (k : Nat) : F :=
  if k % 2 = 0 then a.getD (k / 2) 0 else b.getD (k / 2) 0

/-- Whether a field has a numeric subject sequence for `strtoull` with base 0: after white
space and an optional sign comes a decimal digit (every octal, decimal or `0x` number
starts with one). -/
def beginsWithNumber (f : List Char) : Bool :=
  match (takeSign (f.dropWhile isspace)).2 with
  | c :: _ => c.isDigit
  | [] => false

/-- A world for examples: the three environment variables, what `cin >> X` stores and what
`recv_data` delivers; the accessors return 1..7. -/
def sampleWorld (guesses x host : Option String) (cin : Nat) (flag : String) : World where
  getenv := fun k =>
    if k = "SLOWGOLD_GUESSES" then guesses
    else if k = "SLOWGOLD_X" then x
    else if k = "SLOWGOLD_HOST" then host
    else none
  cin_u64 := cin
  recv_data := fun _ => flag
  slowgold_last_delta_u64 := 1
  slowgold_last_mulcheck_seed := 2
  slowgold_last_mulcheck_U := 3
  slowgold_last_mulcheck_V := 4
  slowgold_last_mulcheck_ka := 5
  slowgold_last_mulcheck_kb := 6
  slowgold_last_mulcheck_kc := 7

/-- A world in which SLOWGOLD_X is unset, ten guesses are supplied and `cin >> X` would
store 7. -/
def stdinWorld : World := sampleWorld (some "1,2,3,4,5,6,7,8,9,10") none none 7 ""

/-! ## The sequence the two programs are specified to issue -/

/-- The running product after `n` positions of the chain over the secret inputs
`off, off+2, off+4, ...`: public 1, then times (input + public `X`) per position. -/
def spec_chain (X : Nat) (off : Nat) : Nat → IntFp
  | 0 => IntFp.pub 1
  | n + 1 => IntFp.mul (spec_chain X off n)
      (IntFp.add (IntFp.input (2 * n + off) 0 Party.ALICE) (IntFp.pub X))

/-- The value handed to the zero check: the first product plus the negated second. -/
def spec_final_zero (X : Nat) : IntFp :=
  IntFp.add (spec_chain X 0 10) (IntFp.negate (spec_chain X 1 10))

/-- The proof-system operations between `setup_zk_arith` and `finalize_zk_arith` as
specified: twenty secret inputs (`array1[i]` then `array2[i]`, `i = 0..9`), one send of `X`
as 8 bytes, the multiplication chain (`acc1` then `acc2` at each position, each from public
1), and one `batch_reveal_check_zero` call over one value. -/
def spec_zk_sequence (X : Nat) : List Event :=
  (List.range 10).flatMap (fun i =>
    [Event.intfp (IntFp.input (2 * i) 0 Party.ALICE),
     Event.intfp (IntFp.input (2 * i + 1) 0 Party.ALICE)])
  ++ [Event.zk_send_data X 8]
  ++ [Event.intfp (IntFp.pub 1), Event.intfp (IntFp.pub 1)]
  ++ (List.range 10).flatMap (fun i =>
    [Event.intfp (IntFp.pub X),
     Event.intfp (IntFp.add (IntFp.input (2 * i) 0 Party.ALICE) (IntFp.pub X)),
     Event.intfp (spec_chain X 0 (i + 1)),
     Event.intfp (IntFp.pub X),
     Event.intfp (IntFp.add (IntFp.input (2 * i + 1) 0 Party.ALICE) (IntFp.pub X)),
     Event.intfp (spec_chain X 1 (i + 1))])
  ++ [Event.intfp (IntFp.negate (spec_chain X 1 10)),
      Event.intfp (spec_final_zero X),
      Event.batch_reveal_check_zero [spec_final_zero X] 1]

/-- The value of `X` in the submit program (slowgold_submit.cpp, lines 44-47). -/
def submit_X (w : World) : Nat :=
  match w.getenv "SLOWGOLD_X" with
  | some xs => strtoull xs.toList 0
  | none => 0

/-- The value of `X` in the probe program (slowgold_probe.cpp, lines 25-31). -/
def probe_X (w : World) : Nat :=
  match w.getenv "SLOWGOLD_X" with
  | some xs => strtoull xs.toList 0
  | none => w.cin_u64

/-- The value of `host` in both programs: SLOWGOLD_HOST, or the fixed address. -/
def hostOf (w : World) : String :=
  match w.getenv "SLOWGOLD_HOST" with
  | some h => h
  | none => "34.169.138.235"

/-! ## `parse_u64_csv`: the fields it reads -/

theorem getline_rest_lt {delim : Char} {ss item rest : List Char}
    (h : getline delim ss = some (item, rest)) : rest.length < ss.length := by
  cases ss with
  | nil => simp [getline] at h
  | cons c cs =>
    simp only [getline, Option.some.injEq, Prod.mk.injEq] at h
    rw [← h.2]
    have h1 := (List.dropWhile_sublist (l := cs) (fun x => x != delim)).length_le
    by_cases hc : (c != delim) = true
    · simp only [List.dropWhile_cons, hc, if_true, List.length_drop, List.length_cons]
      omega
    · simp [List.dropWhile_cons, hc]

theorem splitOn_head (d : Char) (ss : List Char) :
    ss.splitOn d = ss.takeWhile (· != d) ::
      (match ss.dropWhile (· != d) with
       | [] => []
       | _ :: rest => rest.splitOn d) := by
  induction ss with
  | nil => rfl
  | cons c cs ih =>
    unfold List.splitOn at ih ⊢
    rw [List.splitOnP_cons]
    by_cases hc : c = d
    · subst hc
      simp
    · have h1 : (c == d) = false := by simpa using hc
      have h2 : (c != d) = true := by simpa using hc
      rw [ih]
      simp [h1, h2, List.takeWhile_cons, List.dropWhile_cons, List.modifyHead]

theorem splitOn_getline {d : Char} {ss item rest : List Char}
    (h : getline d ss = some (item, rest)) :
    (ss.splitOn d).filter (fun f => !f.isEmpty) =
      (if item.isEmpty then [] else [item]) ++ (rest.splitOn d).filter (fun f => !f.isEmpty) := by
  cases ss with
  | nil => simp [getline] at h
  | cons c cs =>
    simp only [getline, Option.some.injEq, Prod.mk.injEq] at h
    obtain ⟨h1, h2⟩ := h
    rw [splitOn_head d (c :: cs), h1]
    cases hd : (c :: cs).dropWhile (· != d) with
    | nil =>
      rw [hd] at h2
      subst h2
      cases item <;> simp [List.filter]
    | cons x r =>
      rw [hd] at h2
      subst h2
      cases item <;> simp [List.filter]

theorem parseLoop_eq_aux : ∀ (n : Nat) (ss : List Char) (out : List Nat), ss.length ≤ n →
    parseLoop ss out =
      out ++ ((ss.splitOn ',').filter (fun f => !f.isEmpty)).map (fun f => strtoull f 0) := by
  intro n
  induction n with
  | zero =>
    intro ss out h
    have : ss = [] := List.length_eq_zero.mp (Nat.le_zero.mp h)
    subst this
    rw [parseLoop]
    simp [getline]
  | succ n ih =>
    intro ss out h
    rw [parseLoop]
    split
    · next hg =>
      cases ss with
      | nil => simp
      | cons c cs => simp [getline] at hg
    · next item rest hg =>
      have hlt := getline_rest_lt hg
      have hrest := fun o => ih rest o (by omega)
      rw [splitOn_getline hg]
      by_cases hi : item.isEmpty = true
      · simp only [hi, if_true, List.nil_append]
        exact hrest out
      · simp only [hi, if_false, Bool.false_eq_true]
        rw [hrest]
        simp

theorem parse_u64_csv_eq (s : String) :
    parse_u64_csv s =
      ((s.toList.splitOn ',').filter (fun f => !f.isEmpty)).map (fun f => strtoull f 0) := by
  unfold parse_u64_csv
  rw [parseLoop_eq_aux s.toList.length s.toList [] le_rfl]
  simp

/-! ## `strtoull` on decimal renderings -/

theorem digitValue_digitChar (d : Nat) (h : d < 10) : digitValue (Nat.digitChar d) = some d := by
  interval_cases d <;> rfl

theorem isspace_digitChar (d : Nat) (h : d < 10) : isspace (Nat.digitChar d) = false := by
  interval_cases d <;> rfl

theorem toDigitsCore_eq : ∀ (fuel n : Nat) (ds : List Char), 0 < n → n < fuel →
    Nat.toDigitsCore 10 fuel n ds = ((Nat.digits 10 n).reverse.map Nat.digitChar) ++ ds := by
  intro fuel
  induction fuel with
  | zero => intro n ds _ h; omega
  | succ fuel ih =>
    intro n ds hpos hlt
    rw [Nat.digits_def' (by norm_num) hpos]
    simp only [Nat.toDigitsCore, List.reverse_cons, List.map_append, List.map_cons, List.map_nil,
      List.append_assoc, List.singleton_append]
    by_cases h0 : n / 10 = 0
    · simp [h0]
    · simp only [h0, if_false]
      rw [ih (n / 10) _ (Nat.pos_of_ne_zero h0) (by omega)]

theorem toDigits_pos (n : Nat) (h : 0 < n) :
    Nat.toDigits 10 n = (Nat.digits 10 n).reverse.map Nat.digitChar := by
  rw [Nat.toDigits, toDigitsCore_eq (n + 1) n [] h (by omega)]
  simp

theorem scanDigits_map : ∀ (L : List Nat) (a : Nat), (∀ d ∈ L, d < 10) →
    scanDigits 10 (L.map Nat.digitChar) (some a) = some (L.foldl (fun a d => a * 10 + d) a) := by
  intro L
  induction L with
  | nil => intro a _; rfl
  | cons d L ih =>
    intro a h
    have hd : d < 10 := h d (List.mem_cons_self _ _)
    simp only [List.map_cons, scanDigits, digitValue_digitChar d hd, hd, if_true,
      Option.getD_some, List.foldl_cons]
    exact ih _ (fun x hx => h x (List.mem_cons_of_mem _ hx))

theorem foldl_reverse_digits (L : List Nat) :
    L.reverse.foldl (fun a d => a * 10 + d) 0 = Nat.ofDigits 10 L := by
  induction L with
  | nil => rfl
  | cons d L ih =>
    simp only [List.reverse_cons, List.foldl_append, List.foldl_cons, List.foldl_nil, ih,
      Nat.ofDigits_cons]
    ring

theorem strtoull_toDigits (v : Nat) (hv : v ≤ ULLONG_MAX) :
    strtoull (Nat.toDigits 10 v) 0 = v := by
  rcases Nat.eq_zero_or_pos v with h0 | hpos
  · subst h0; decide
  · rw [toDigits_pos v hpos]
    have hne : Nat.digits 10 v ≠ [] := Nat.digits_ne_nil_iff_ne_zero.mpr (by omega)
    have hlast : ∀ h : Nat.digits 10 v ≠ [], (Nat.digits 10 v).getLast h ≠ 0 :=
      fun _ => Nat.getLast_digit_ne_zero 10 (m := v) (by omega)
    have hall : ∀ d ∈ Nat.digits 10 v, d < 10 := fun d hd => Nat.digits_lt_base (by norm_num) hd
    have hval := Nat.ofDigits_digits 10 v
    rw [← foldl_reverse_digits] at hval
    generalize Nat.digits 10 v = L at hne hlast hall hval
    obtain ⟨L', d, rfl⟩ : ∃ L' d, L = L' ++ [d] := by
      refine ⟨L.dropLast, L.getLast hne, (List.dropLast_append_getLast hne).symm⟩
    have hlast := hlast hne
    simp only [List.getLast_append_singleton] at hlast
    simp only [List.reverse_append, List.reverse_cons, List.reverse_nil, List.nil_append,
      List.singleton_append, List.map_cons, List.foldl_cons] at hval ⊢
    have hd : d < 10 := hall d (by simp)
    have hrest : ∀ x ∈ L'.reverse, x < 10 := fun x hx => hall x (by simp at hx; simp [hx])
    have hscan := scanDigits_map L'.reverse d hrest
    have hstep : ∀ (t : List Char), scanDigits 10 (Nat.digitChar d :: t) none
        = scanDigits 10 t (some d) := by
      intro t
      simp [scanDigits, digitValue_digitChar d hd, hd]
    have hpre : ∀ (t : List Char), strtoull (Nat.digitChar d :: t) 0 =
        match scanDigits 10 (Nat.digitChar d :: t) none with
        | none => 0
        | some i => if i > ULLONG_MAX then ULLONG_MAX else i := by
      intro t
      interval_cases d
      · exact absurd rfl hlast
      all_goals rfl
    rw [hpre, hstep, hscan]
    simp only [zero_mul, zero_add] at hval
    simp only [hval]
    rw [if_neg (by omega)]

theorem strtoull_toString (v : Nat) (hv : v ≤ ULLONG_MAX) :
    strtoull (toString v).toList 0 = v := by
  have : (toString v).toList = Nat.toDigits 10 v := rfl
  rw [this]
  exact strtoull_toDigits v hv

theorem toDigits_chars (v : Nat) :
    ∃ L : List Nat, L ≠ [] ∧ (∀ d ∈ L, d < 10) ∧ Nat.toDigits 10 v = L.map Nat.digitChar := by
  rcases Nat.eq_zero_or_pos v with h0 | hpos
  · subst h0; exact ⟨[0], by simp, by simp, rfl⟩
  · refine ⟨(Nat.digits 10 v).reverse, ?_, ?_, toDigits_pos v hpos⟩
    · simpa using Nat.digits_ne_nil_iff_ne_zero.mpr (by omega)
    · intro d hd
      exact Nat.digits_lt_base (by norm_num) (List.mem_reverse.mp hd)

theorem comma_ne_digitChar (d : Nat) (h : d < 10) : Nat.digitChar d ≠ ',' := by
  interval_cases d <;> decide

theorem comma_not_mem_toString (v : Nat) : ',' ∉ (toString v).toList := by
  have h : (toString v).toList = Nat.toDigits 10 v := rfl
  obtain ⟨L, _, hL, hE⟩ := toDigits_chars v
  rw [h, hE]
  intro hm
  obtain ⟨d, hd, hc⟩ := List.mem_map.mp hm
  exact comma_ne_digitChar d (hL d hd) hc

theorem toString_toList_ne_nil (v : Nat) : (toString v).toList ≠ [] := by
  have h : (toString v).toList = Nat.toDigits 10 v := rfl
  obtain ⟨L, hne, _, hE⟩ := toDigits_chars v
  rw [h, hE]
  simpa using hne

theorem intercalate_go_toList (sep : String) : ∀ (l : List String) (acc : String),
    (String.intercalate.go acc sep l).toList =
      acc.toList ++ (l.map (fun a => sep.toList ++ a.toList)).flatten := by
  intro l
  induction l with
  | nil => intro acc; simp [String.intercalate.go]
  | cons a l ih =>
    intro acc
    rw [String.intercalate.go, ih]
    simp [String.toList]

theorem flatten_intersperse (sep a : List Char) (l : List (List Char)) :
    (List.intersperse sep (a :: l)).flatten = a ++ (l.map (fun b => sep ++ b)).flatten := by
  induction l generalizing a with
  | nil => simp
  | cons b l ih =>
    rw [List.intersperse_cons₂, List.flatten_cons, List.flatten_cons, ih b]
    simp

theorem intercalate_toList (sep : String) (l : List String) :
    (sep.intercalate l).toList = sep.toList.intercalate (l.map String.toList) := by
  cases l with
  | nil => rfl
  | cons a l =>
    rw [String.intercalate, intercalate_go_toList, List.intercalate, List.map_cons,
      flatten_intersperse, List.map_map]
    rfl

theorem parse_u64_csv_intercalate (vs : List Nat) (h : ∀ v ∈ vs, v ≤ ULLONG_MAX) :
    parse_u64_csv (",".intercalate (vs.map toString)) = vs := by
  rw [parse_u64_csv_eq, intercalate_toList]
  cases vs with
  | nil => decide
  | cons v vs =>
  have hs : ",".toList = [','] := rfl
  rw [hs, List.splitOn_intercalate]
  · rw [List.filter_eq_self.mpr]
    · simp only [List.map_map]
      conv_rhs => rw [← List.map_id (v :: vs)]
      apply List.map_congr_left
      intro x hx
      simpa using strtoull_toString x (h x hx)
    · intro f hf
      simp only [List.map_map, List.mem_map, Function.comp] at hf
      obtain ⟨x, _, rfl⟩ := hf
      have := toString_toList_ne_nil x
      cases hx : (toString x).toList with
      | nil => exact absurd hx this
      | cons _ _ => rfl
  · intro f hf
    simp only [List.map_map, List.mem_map, Function.comp] at hf
    obtain ⟨x, _, rfl⟩ := hf
    exact comma_not_mem_toString x
  · simp

/-! ## The traces of the two programs in closed form -/

theorem length_ten {α : Type} (l : List α) (h : l.length = 10) :
    ∃ a0 a1 a2 a3 a4 a5 a6 a7 a8 a9, l = [a0, a1, a2, a3, a4, a5, a6, a7, a8, a9] := by
  match l, h with
  | [a0, a1, a2, a3, a4, a5, a6, a7, a8, a9], _ => exact ⟨a0, a1, a2, a3, a4, a5, a6, a7, a8, a9, rfl⟩

theorem probe_arrays_eq : probe_arrays =
    ((List.range 10).map (fun i => IntFp.input (2 * i) 0 Party.ALICE),
     (List.range 10).map (fun i => IntFp.input (2 * i + 1) 0 Party.ALICE),
     (List.range 10).flatMap (fun i =>
       [Event.intfp (IntFp.input (2 * i) 0 Party.ALICE),
        Event.intfp (IntFp.input (2 * i + 1) 0 Party.ALICE)])) := by
  decide

theorem submit_arrays_eq : submit_arrays =
    ((List.range 10).map (fun i => IntFp.input (2 * i) 0 Party.ALICE),
     (List.range 10).map (fun i => IntFp.input (2 * i + 1) 0 Party.ALICE),
     (List.range 10).flatMap (fun i =>
       [Event.intfp (IntFp.input (2 * i) 0 Party.ALICE),
        Event.intfp (IntFp.input (2 * i + 1) 0 Party.ALICE)])) := by
  decide

theorem probe_chain_eq (X : Nat) : probe_chain X
    ((List.range 10).map (fun i => IntFp.input (2 * i) 0 Party.ALICE))
    ((List.range 10).map (fun i => IntFp.input (2 * i + 1) 0 Party.ALICE)) =
    (spec_chain X 0 10, spec_chain X 1 10,
     [Event.intfp (IntFp.pub 1), Event.intfp (IntFp.pub 1)]
      ++ (List.range 10).flatMap (fun i =>
        [Event.intfp (IntFp.pub X),
         Event.intfp (IntFp.add (IntFp.input (2 * i) 0 Party.ALICE) (IntFp.pub X)),
         Event.intfp (spec_chain X 0 (i + 1)),
         Event.intfp (IntFp.pub X),
         Event.intfp (IntFp.add (IntFp.input (2 * i + 1) 0 Party.ALICE) (IntFp.pub X)),
         Event.intfp (spec_chain X 1 (i + 1))])) := by
  rfl

theorem submit_chain_eq (X : Nat) : submit_chain X
    ((List.range 10).map (fun i => IntFp.input (2 * i) 0 Party.ALICE))
    ((List.range 10).map (fun i => IntFp.input (2 * i + 1) 0 Party.ALICE)) =
    (spec_chain X 0 10, spec_chain X 1 10,
     [Event.intfp (IntFp.pub 1), Event.intfp (IntFp.pub 1)]
      ++ (List.range 10).flatMap (fun i =>
        [Event.intfp (IntFp.pub X),
         Event.intfp (IntFp.add (IntFp.input (2 * i) 0 Party.ALICE) (IntFp.pub X)),
         Event.intfp (spec_chain X 0 (i + 1)),
         Event.intfp (IntFp.pub X),
         Event.intfp (IntFp.add (IntFp.input (2 * i + 1) 0 Party.ALICE) (IntFp.pub X)),
         Event.intfp (spec_chain X 1 (i + 1))])) := by
  rfl

theorem submit_sends_eq (guesses : List Nat) (h : guesses.length = 10) :
    submit_sends guesses = guesses.map (fun g => Event.send_data 0 g 8) := by
  obtain ⟨a0, a1, a2, a3, a4, a5, a6, a7, a8, a9, rfl⟩ := length_ten _ h
  rfl

theorem submit_main_accepted (w : World) (gs : String)
    (hgs : w.getenv "SLOWGOLD_GUESSES" = some gs) (hlen : (parse_u64_csv gs).length = 10) :
    submit_main w = ⟨0,
      [Event.cerr "[submit] start\n",
       Event.new_ios 0 (some (hostOf w)) 31183 false,
       Event.cerr "[submit] netio ready\n",
       Event.setup_zk_arith [0] 1 Party.BOB,
       Event.cerr "[submit] setup done\n"]
      ++ spec_zk_sequence (submit_X w)
      ++ [Event.finalize_zk_arith, Event.cerr "[submit] zkp done\n"]
      ++ (parse_u64_csv gs).map (fun g => Event.send_data 0 g 8)
      ++ [Event.cerr "[submit] guesses sent\n",
          Event.cerr "[submit] waiting flag...\n",
          Event.recv_data 0 46,
          Event.cerr "[submit] flag recv\n",
          Event.cout (w.recv_data 46),
          Event.delete_ios 0]⟩ := by
  unfold submit_main
  rw [hgs]
  simp only [hlen, ne_eq, not_true_eq_false, if_false, submit_arrays_eq, submit_chain_eq,
    submit_sends_eq _ hlen]
  have h1 : List.range 1 = [0] := rfl
  simp only [spec_zk_sequence, spec_final_zero, submit_X, hostOf, sizeof_uint64_t, threads, h1]
  simp

theorem probe_main_eq (w : World) :
    probe_main w = ⟨0,
      (match w.getenv "SLOWGOLD_X" with
        | some _ => []
        | none => [Event.cin_u64 w.cin_u64])
      ++ [Event.new_ios 0 (some (hostOf w)) 31183 false,
          Event.setup_zk_arith [0] 1 Party.BOB]
      ++ spec_zk_sequence (probe_X w)
      ++ [Event.finalize_zk_arith,
          Event.accessor "slowgold_last_delta_u64" w.slowgold_last_delta_u64,
          Event.accessor "slowgold_last_mulcheck_seed" w.slowgold_last_mulcheck_seed,
          Event.accessor "slowgold_last_mulcheck_U" w.slowgold_last_mulcheck_U,
          Event.accessor "slowgold_last_mulcheck_V" w.slowgold_last_mulcheck_V,
          Event.accessor "slowgold_last_mulcheck_ka" w.slowgold_last_mulcheck_ka,
          Event.accessor "slowgold_last_mulcheck_kb" w.slowgold_last_mulcheck_kb,
          Event.accessor "slowgold_last_mulcheck_kc" w.slowgold_last_mulcheck_kc,
          Event.cout ("\x7b\"X\":" ++ toString (probe_X w)
            ++ ",\"delta\":" ++ toString w.slowgold_last_delta_u64
            ++ ",\"seed\":" ++ toString w.slowgold_last_mulcheck_seed
            ++ ",\"U\":" ++ toString w.slowgold_last_mulcheck_U
            ++ ",\"V\":" ++ toString w.slowgold_last_mulcheck_V
            ++ ",\"ka\":" ++ toString w.slowgold_last_mulcheck_ka
            ++ ",\"kb\":" ++ toString w.slowgold_last_mulcheck_kb
            ++ ",\"kc\":" ++ toString w.slowgold_last_mulcheck_kc
            ++ "\x7d\n"),
          Event.delete_ios 0]⟩ := by
  unfold probe_main
  simp only [probe_arrays_eq, probe_chain_eq]
  have h1 : List.range 1 = [0] := rfl
  simp only [spec_zk_sequence, spec_final_zero, probe_X, hostOf, sizeof_uint64_t, threads, h1]
  cases w.getenv "SLOWGOLD_X" <;> simp <;> (apply String.ext; simp [String.data_append])

/-! ## The claims -/

theorem submit_main_rejected (w : World) (gs : String)
    (hgs : w.getenv "SLOWGOLD_GUESSES" = some gs) (hn : (parse_u64_csv gs).length ≠ 10) :
    submit_main w = ⟨2, [Event.cerr "[submit] start\n",
      Event.cerr ("need exactly 10 guesses, got " ++ toString (parse_u64_csv gs).length
        ++ "\n")]⟩ := by
  unfold submit_main
  rw [hgs]
  simp only [hn, ne_eq, not_false_eq_true, if_true]
  rfl

theorem submit_main_unset (w : World) (hgs : w.getenv "SLOWGOLD_GUESSES" = none) :
    submit_main w = ⟨2, [Event.cerr "[submit] start\n",
      Event.cerr "need SLOWGOLD_GUESSES=comma,separated,10,values\n"]⟩ := by
  unfold submit_main
  rw [hgs]
  rfl

/-- C1: whenever `parse_u64_csv` of SLOWGOLD_GUESSES has a length `n` other than 10, the
submit program returns 2, its only effects are the start message and the line
`need exactly 10 guesses, got n` on the error stream, and standard output stays empty. -/
theorem C1_wrong_guess_count (w : World) (gs : String)
    (hgs : w.getenv "SLOWGOLD_GUESSES" = some gs) (hn : (parse_u64_csv gs).length ≠ 10) :
    (submit_main w).status = 2 ∧
    (submit_main w).trace = [Event.cerr "[submit] start\n",
      Event.cerr ("need exactly 10 guesses, got " ++ toString (parse_u64_csv gs).length
        ++ "\n")] ∧
    stderrOf (submit_main w).trace = "[submit] start\n" ++
      ("need exactly 10 guesses, got " ++ toString (parse_u64_csv gs).length ++ "\n") ∧
    stdoutOf (submit_main w).trace = "" := by
  rw [submit_main_rejected w gs hgs hn]
  refine ⟨rfl, rfl, ?_, rfl⟩
  simp [stderrOf, String.join]

/-- C1 on SLOWGOLD_GUESSES `1,,2,`: two guesses, status 2 and the message with `2`. -/
theorem C1_wrong_guess_count_witness :
    (parse_u64_csv "1,,2,").length ≠ 10 ∧
    (submit_main (sampleWorld (some "1,,2,") none none 0 "")).status = 2 ∧
    stderrOf (submit_main (sampleWorld (some "1,,2,") none none 0 "")).trace
      = "[submit] start\nneed exactly 10 guesses, got 2\n" ∧
    stdoutOf (submit_main (sampleWorld (some "1,,2,") none none 0 "")).trace = "" := by
  have hp : parse_u64_csv "1,,2," = [1, 2] := by rw [parse_u64_csv_eq]; decide
  have hn : (parse_u64_csv "1,,2,").length ≠ 10 := by rw [hp]; decide
  have h := C1_wrong_guess_count (sampleWorld (some "1,,2,") none none 0 "") "1,,2," rfl hn
  refine ⟨hn, h.1, ?_, h.2.2.2⟩
  rw [h.2.2.1, hp]
  decide

theorem sentGuesses_append (l1 l2 : List Event) :
    sentGuesses (l1 ++ l2) = sentGuesses l1 ++ sentGuesses l2 := by
  simp [sentGuesses]

theorem sentGuesses_spec (X : Nat) : sentGuesses (spec_zk_sequence X) = [] := rfl

theorem sentGuesses_sends (l : List Nat) :
    sentGuesses (l.map (fun g => Event.send_data 0 g 8)) = l := by
  induction l with
  | nil => rfl
  | cons a l ih =>
    have : sentGuesses (Event.send_data 0 a 8 :: l.map (fun g => Event.send_data 0 g 8))
        = a :: sentGuesses (l.map (fun g => Event.send_data 0 g 8)) := rfl
    rw [List.map_cons, this, ih]

theorem sentGuesses_accepted (w : World) (gs : String)
    (hgs : w.getenv "SLOWGOLD_GUESSES" = some gs) (hlen : (parse_u64_csv gs).length = 10) :
    sentGuesses (submit_main w).trace = parse_u64_csv gs := by
  rw [submit_main_accepted w gs hgs hlen]
  simp only [sentGuesses_append, sentGuesses_spec, sentGuesses_sends]
  simp [sentGuesses]

/-- C2: for ten unsigned 64-bit values `vs`, `parse_u64_csv` of their decimal renderings
joined by single commas is `vs` itself, in order; the submit program given that string in
SLOWGOLD_GUESSES accepts it (returns 0) and the values it sends as guesses are `vs`. -/
theorem C2_ten_values_roundtrip (vs : List Nat) (hlen : vs.length = 10)
    (hv : ∀ v ∈ vs, v < 2 ^ 64) :
    parse_u64_csv (",".intercalate (vs.map toString)) = vs ∧
    ∀ w : World, w.getenv "SLOWGOLD_GUESSES" = some (",".intercalate (vs.map toString)) →
      (submit_main w).status = 0 ∧ sentGuesses (submit_main w).trace = vs := by
  have hp : parse_u64_csv (",".intercalate (vs.map toString)) = vs :=
    parse_u64_csv_intercalate vs (fun v h => by have := hv v h; unfold ULLONG_MAX; omega)
  refine ⟨hp, fun w hw => ?_⟩
  have hl : (parse_u64_csv (",".intercalate (vs.map toString))).length = 10 := by rw [hp, hlen]
  refine ⟨?_, ?_⟩
  · rw [submit_main_accepted w _ hw hl]
  · rw [sentGuesses_accepted w _ hw hl, hp]

/-- C2 on ten values including 0 and `2^64 - 1`. -/
theorem C2_ten_values_roundtrip_witness :
    parse_u64_csv
      (",".intercalate ([0, 1, 2, 3, 4, 5, 6, 7, 18446744073709551615, 10].map toString))
      = [0, 1, 2, 3, 4, 5, 6, 7, 18446744073709551615, 10] :=
  (C2_ten_values_roundtrip [0, 1, 2, 3, 4, 5, 6, 7, 18446744073709551615, 10] rfl
    (by decide)).1

theorem sentChallenges_append (l1 l2 : List Event) :
    sentChallenges (l1 ++ l2) = sentChallenges l1 ++ sentChallenges l2 := by
  simp [sentChallenges]

theorem sentChallenges_spec (X : Nat) : sentChallenges (spec_zk_sequence X) = [X] := rfl

theorem sentChallenges_sends (l : List Nat) :
    sentChallenges (l.map (fun g => Event.send_data 0 g 8)) = [] := by
  induction l with
  | nil => rfl
  | cons a l ih =>
    have : sentChallenges (Event.send_data 0 a 8 :: l.map (fun g => Event.send_data 0 g 8))
        = sentChallenges (l.map (fun g => Event.send_data 0 g 8)) := rfl
    rw [List.map_cons, this, ih]

theorem stdinReads_append (l1 l2 : List Event) :
    stdinReads (l1 ++ l2) = stdinReads l1 ++ stdinReads l2 := by
  simp [stdinReads]

theorem stdinReads_spec (X : Nat) : stdinReads (spec_zk_sequence X) = [] := rfl

theorem stdinReads_sends (l : List Nat) :
    stdinReads (l.map (fun g => Event.send_data 0 g 8)) = [] := by
  induction l with
  | nil => rfl
  | cons a l ih =>
    have : stdinReads (Event.send_data 0 a 8 :: l.map (fun g => Event.send_data 0 g 8))
        = stdinReads (l.map (fun g => Event.send_data 0 g 8)) := rfl
    rw [List.map_cons, this, ih]

theorem sentChallenges_submit (w : World) (gs : String)
    (hgs : w.getenv "SLOWGOLD_GUESSES" = some gs) (hlen : (parse_u64_csv gs).length = 10) :
    sentChallenges (submit_main w).trace = [submit_X w] := by
  rw [submit_main_accepted w gs hgs hlen]
  simp only [sentChallenges_append, sentChallenges_spec, sentChallenges_sends]
  simp [sentChallenges]

theorem sentChallenges_probe (w : World) :
    sentChallenges (probe_main w).trace = [probe_X w] := by
  rw [probe_main_eq w]
  simp only [sentChallenges_append, sentChallenges_spec]
  cases w.getenv "SLOWGOLD_X" <;> simp [sentChallenges]

theorem stdinReads_submit (w : World) : stdinReads (submit_main w).trace = [] := by
  cases hgs : w.getenv "SLOWGOLD_GUESSES" with
  | none => rw [submit_main_unset w hgs]; rfl
  | some gs =>
    by_cases hlen : (parse_u64_csv gs).length = 10
    · rw [submit_main_accepted w gs hgs hlen]
      simp only [stdinReads_append, stdinReads_spec, stdinReads_sends]
      simp [stdinReads]
    · rw [submit_main_rejected w gs hgs hlen]; rfl

/-- C3 as stated fails for the submit program: with SLOWGOLD_X unset, ten guesses accepted
and 7 waiting on standard input, the submit program sends the challenge 0, not the value on
standard input, and never reads standard input, while the probe program in the same world
reads and sends 7. -/
theorem C3_submit_ignores_stdin :
    stdinWorld.getenv "SLOWGOLD_X" = none ∧
    stdinWorld.cin_u64 = 7 ∧
    (submit_main stdinWorld).status = 0 ∧
    sentChallenges (submit_main stdinWorld).trace = [0] ∧
    sentChallenges (submit_main stdinWorld).trace ≠ [stdinWorld.cin_u64] ∧
    stdinReads (submit_main stdinWorld).trace = [] ∧
    sentChallenges (probe_main stdinWorld).trace = [7] := by
  have hl : (parse_u64_csv "1,2,3,4,5,6,7,8,9,10").length = 10 := by
    rw [parse_u64_csv_eq]; decide
  have h0 : sentChallenges (submit_main stdinWorld).trace = [0] := by
    rw [sentChallenges_submit stdinWorld "1,2,3,4,5,6,7,8,9,10" rfl hl]; rfl
  refine ⟨rfl, rfl, ?_, h0, ?_, stdinReads_submit _, ?_⟩
  · rw [submit_main_accepted stdinWorld "1,2,3,4,5,6,7,8,9,10" rfl hl]
  · rw [h0]; decide
  · rw [sentChallenges_probe]; rfl

/-- C3, amended: the probe program sends as challenge SLOWGOLD_X parsed by `strtoull` (base
0) when the variable is set and otherwise the value it reads from standard input, reading
standard input in that case only; the submit program, once the guesses are accepted, sends
SLOWGOLD_X parsed the same way when set and 0 otherwise, and never reads standard input. -/
theorem C3_challenge_source (w : World) :
    sentChallenges (probe_main w).trace =
      [match w.getenv "SLOWGOLD_X" with
       | some xs => strtoull xs.toList 0
       | none => w.cin_u64] ∧
    stdinReads (probe_main w).trace =
      (match w.getenv "SLOWGOLD_X" with
       | some _ => []
       | none => [w.cin_u64]) ∧
    (∀ gs, w.getenv "SLOWGOLD_GUESSES" = some gs → (parse_u64_csv gs).length = 10 →
      sentChallenges (submit_main w).trace =
        [match w.getenv "SLOWGOLD_X" with
         | some xs => strtoull xs.toList 0
         | none => 0]) ∧
    stdinReads (submit_main w).trace = [] := by
  refine ⟨sentChallenges_probe w, ?_, fun gs hgs hlen => sentChallenges_submit w gs hgs hlen,
    stdinReads_submit w⟩
  rw [probe_main_eq w]
  simp only [stdinReads_append, stdinReads_spec]
  cases w.getenv "SLOWGOLD_X" <;> simp [stdinReads]

/-- C3 (amended) on SLOWGOLD_X `0x1F`: the submit program sends 31. -/
theorem C3_challenge_source_witness :
    sentChallenges
      (submit_main (sampleWorld (some "1,2,3,4,5,6,7,8,9,10") (some "0x1F") none 7 "")).trace
      = [31] := by
  have hl : (parse_u64_csv "1,2,3,4,5,6,7,8,9,10").length = 10 := by
    rw [parse_u64_csv_eq]; decide
  have h := (C3_challenge_source
    (sampleWorld (some "1,2,3,4,5,6,7,8,9,10") (some "0x1F") none 7 "")).2.2.1
    "1,2,3,4,5,6,7,8,9,10" rfl hl
  rw [h]
  decide

theorem rawOps_append (l1 l2 : List Event) : rawOps (l1 ++ l2) = rawOps l1 ++ rawOps l2 := by
  simp [rawOps]

theorem rawOps_spec (X : Nat) : rawOps (spec_zk_sequence X) = [] := rfl

theorem rawOps_sends (l : List Nat) :
    rawOps (l.map (fun g => Event.send_data 0 g 8)) = l.map (fun g => Event.send_data 0 g 8) := by
  induction l with
  | nil => rfl
  | cons a l ih =>
    have : rawOps (Event.send_data 0 a 8 :: l.map (fun g => Event.send_data 0 g 8))
        = Event.send_data 0 a 8 :: rawOps (l.map (fun g => Event.send_data 0 g 8)) := rfl
    rw [List.map_cons, this, ih]

theorem finalize_not_mem_spec (X : Nat) : Event.finalize_zk_arith ∉ spec_zk_sequence X := by
  have h : (spec_zk_sequence X).all (fun e => e != Event.finalize_zk_arith) = true := rfl
  intro hm
  have := List.all_eq_true.mp h _ hm
  simp at this

/-- C4: when the guesses are accepted, the trace of the submit program splits at its one
`finalize_zk_arith` call; before it, the connection `ios[0]` is opened and handed to
`setup_zk_arith` and no raw `send_data`/`recv_data` happens; after it, the raw transfers
are exactly ten `send_data` calls on `ios[0]` of 8 bytes each, carrying the parsed guesses
in input order, followed by one `recv_data` on `ios[0]` of 46 bytes. -/
theorem C4_guesses_after_finalize (w : World) (gs : String)
    (hgs : w.getenv "SLOWGOLD_GUESSES" = some gs) (hlen : (parse_u64_csv gs).length = 10) :
    ∃ pre post : List Event,
      (submit_main w).trace = pre ++ Event.finalize_zk_arith :: post ∧
      Event.finalize_zk_arith ∉ pre ∧ Event.finalize_zk_arith ∉ post ∧
      Event.new_ios 0 (some (hostOf w)) 31183 false ∈ pre ∧
      Event.setup_zk_arith [0] 1 Party.BOB ∈ pre ∧
      rawOps pre = [] ∧
      rawOps post = (parse_u64_csv gs).map (fun g => Event.send_data 0 g 8)
        ++ [Event.recv_data 0 46] ∧
      ((parse_u64_csv gs).map (fun g => Event.send_data 0 g 8)).length = 10 := by
  refine ⟨[Event.cerr "[submit] start\n",
       Event.new_ios 0 (some (hostOf w)) 31183 false,
       Event.cerr "[submit] netio ready\n",
       Event.setup_zk_arith [0] 1 Party.BOB,
       Event.cerr "[submit] setup done\n"] ++ spec_zk_sequence (submit_X w),
     [Event.cerr "[submit] zkp done\n"]
      ++ (parse_u64_csv gs).map (fun g => Event.send_data 0 g 8)
      ++ [Event.cerr "[submit] guesses sent\n",
          Event.cerr "[submit] waiting flag...\n",
          Event.recv_data 0 46,
          Event.cerr "[submit] flag recv\n",
          Event.cout (w.recv_data 46),
          Event.delete_ios 0], ?_, ?_, ?_, ?_, ?_, ?_, ?_, ?_⟩
  · rw [submit_main_accepted w gs hgs hlen]
    simp
  · intro hm
    rcases List.mem_append.mp hm with h | h
    · simp at h
    · exact finalize_not_mem_spec _ h
  · simp
  · simp
  · simp
  · rw [rawOps_append, rawOps_spec]
    rfl
  · simp only [rawOps_append, rawOps_sends]
    simp [rawOps, Event.isRaw]
  · simp [hlen]

/-- C4 on the guesses `1,2,3,4,5,6,7,8,9,0x10`: the raw transfers of the whole run. -/
theorem C4_guesses_after_finalize_witness :
    rawOps (submit_main (sampleWorld (some "1,2,3,4,5,6,7,8,9,0x10") none none 0 "")).trace =
      [Event.send_data 0 1 8, Event.send_data 0 2 8, Event.send_data 0 3 8,
       Event.send_data 0 4 8, Event.send_data 0 5 8, Event.send_data 0 6 8,
       Event.send_data 0 7 8, Event.send_data 0 8 8, Event.send_data 0 9 8,
       Event.send_data 0 16 8, Event.recv_data 0 46] := by
  have hp : parse_u64_csv "1,2,3,4,5,6,7,8,9,0x10" = [1, 2, 3, 4, 5, 6, 7, 8, 9, 16] := by
    rw [parse_u64_csv_eq]; decide
  obtain ⟨pre, post, h1, _, _, _, _, h2, h3, _⟩ := C4_guesses_after_finalize
    (sampleWorld (some "1,2,3,4,5,6,7,8,9,0x10") none none 0 "") "1,2,3,4,5,6,7,8,9,0x10" rfl
    (by rw [hp]; rfl)
  have h4 : rawOps (Event.finalize_zk_arith :: post) = rawOps post := rfl
  rw [h1, rawOps_append, h2, h4, h3, hp]
  rfl

theorem foldl_append_string (l : List String) (acc : String) :
    l.foldl (fun r s => r ++ s) acc = acc ++ l.foldl (fun r s => r ++ s) "" := by
  induction l generalizing acc with
  | nil => simp
  | cons a l ih =>
    rw [List.foldl_cons, List.foldl_cons, ih (acc ++ a), ih ("" ++ a)]
    simp [String.append_assoc]

theorem join_append (l1 l2 : List String) :
    String.join (l1 ++ l2) = String.join l1 ++ String.join l2 := by
  unfold String.join
  rw [List.foldl_append, foldl_append_string]

theorem stdoutOf_append (l1 l2 : List Event) :
    stdoutOf (l1 ++ l2) = stdoutOf l1 ++ stdoutOf l2 := by
  simp [stdoutOf, join_append]

theorem stderrOf_append (l1 l2 : List Event) :
    stderrOf (l1 ++ l2) = stderrOf l1 ++ stderrOf l2 := by
  simp [stderrOf, join_append]

theorem stdoutOf_spec (X : Nat) : stdoutOf (spec_zk_sequence X) = "" := rfl

theorem stderrOf_spec (X : Nat) : stderrOf (spec_zk_sequence X) = "" := rfl

theorem stdoutOf_sends (l : List Nat) :
    stdoutOf (l.map (fun g => Event.send_data 0 g 8)) = "" := by
  induction l with
  | nil => rfl
  | cons a l ih =>
    have : stdoutOf (Event.send_data 0 a 8 :: l.map (fun g => Event.send_data 0 g 8))
        = stdoutOf (l.map (fun g => Event.send_data 0 g 8)) := rfl
    rw [List.map_cons, this, ih]

theorem stderrOf_sends (l : List Nat) :
    stderrOf (l.map (fun g => Event.send_data 0 g 8)) = "" := by
  induction l with
  | nil => rfl
  | cons a l ih =>
    have : stderrOf (Event.send_data 0 a 8 :: l.map (fun g => Event.send_data 0 g 8))
        = stderrOf (l.map (fun g => Event.send_data 0 g 8)) := rfl
    rw [List.map_cons, this, ih]

/-- C5: in every run of the probe program, with challenge `X` (the value it sent) and the
accessor values `delta, seed, U, V, ka, kb, kc`, standard output is exactly the text
`{"X":X,"delta":delta,"seed":seed,"U":U,"V":V,"ka":ka,"kb":kb,"kc":kc}` with each value in
unsigned decimal, the keys in that order, no white space, then one newline. -/
theorem C5_probe_json_line (w : World) :
    sentChallenges (probe_main w).trace = [probe_X w] ∧
    stdoutOf (probe_main w).trace =
      "\x7b\"X\":" ++ toString (probe_X w)
        ++ ",\"delta\":" ++ toString w.slowgold_last_delta_u64
        ++ ",\"seed\":" ++ toString w.slowgold_last_mulcheck_seed
        ++ ",\"U\":" ++ toString w.slowgold_last_mulcheck_U
        ++ ",\"V\":" ++ toString w.slowgold_last_mulcheck_V
        ++ ",\"ka\":" ++ toString w.slowgold_last_mulcheck_ka
        ++ ",\"kb\":" ++ toString w.slowgold_last_mulcheck_kb
        ++ ",\"kc\":" ++ toString w.slowgold_last_mulcheck_kc
        ++ "\x7d\n" := by
  refine ⟨sentChallenges_probe w, ?_⟩
  rw [probe_main_eq w]
  simp only [stdoutOf_append, stdoutOf_spec]
  cases w.getenv "SLOWGOLD_X" <;> simp [stdoutOf, String.join]

/-- C6: in every run of the submit program with accepted guesses, the program returns 0,
standard output is exactly the bytes `recv_data` delivered for the 46 requested (46 bytes
when the connection delivers them all), nothing before or after, and the progress messages
are all on the error stream. -/
theorem C6_submit_stdout_is_flag (w : World) (gs : String)
    (hgs : w.getenv "SLOWGOLD_GUESSES" = some gs) (hlen : (parse_u64_csv gs).length = 10)
    (hrecv : (w.recv_data 46).length = 46) :
    (submit_main w).status = 0 ∧
    stdoutOf (submit_main w).trace = w.recv_data 46 ∧
    (stdoutOf (submit_main w).trace).length = 46 ∧
    stderrOf (submit_main w).trace =
      "[submit] start\n[submit] netio ready\n[submit] setup done\n[submit] zkp done\n"
        ++ "[submit] guesses sent\n[submit] waiting flag...\n[submit] flag recv\n" := by
  have hout : stdoutOf (submit_main w).trace = w.recv_data 46 := by
    rw [submit_main_accepted w gs hgs hlen]
    simp only [stdoutOf_append, stdoutOf_spec, stdoutOf_sends]
    simp [stdoutOf, String.join]
  refine ⟨?_, hout, ?_, ?_⟩
  · rw [submit_main_accepted w gs hgs hlen]
  · rw [hout, hrecv]
  · rw [submit_main_accepted w gs hgs hlen]
    simp only [stderrOf_append, stderrOf_spec, stderrOf_sends]
    rfl

/-- C6 on a 46-character reply: standard output is that reply. -/
theorem C6_submit_stdout_is_flag_witness :
    stdoutOf (submit_main (sampleWorld (some "1,2,3,4,5,6,7,8,9,10") none none 0
      "flag_0123456789abcdefghijklmnopqrstuvwxyzABCDE")).trace
      = "flag_0123456789abcdefghijklmnopqrstuvwxyzABCDE" := by
  have hl : (parse_u64_csv "1,2,3,4,5,6,7,8,9,10").length = 10 := by
    rw [parse_u64_csv_eq]; decide
  exact (C6_submit_stdout_is_flag (sampleWorld (some "1,2,3,4,5,6,7,8,9,10") none none 0
    "flag_0123456789abcdefghijklmnopqrstuvwxyzABCDE") "1,2,3,4,5,6,7,8,9,10" rfl hl
    (by decide)).2.1

/-- C9: the submit program opens a network connection exactly when SLOWGOLD_GUESSES is set
and `parse_u64_csv` of it has ten elements; in every other case it returns 2 and every
effect it performed is a write to the error stream (so no network operation, no
proof-system call, nothing on standard output). -/
theorem C9_connects_iff_ten_guesses (w : World) :
    ((submit_main w).trace.any Event.isOpen = true ↔
      ∃ gs, w.getenv "SLOWGOLD_GUESSES" = some gs ∧ (parse_u64_csv gs).length = 10) ∧
    ((¬ ∃ gs, w.getenv "SLOWGOLD_GUESSES" = some gs ∧ (parse_u64_csv gs).length = 10) →
      (submit_main w).status = 2 ∧
      (submit_main w).trace.all Event.isCerr = true ∧
      (submit_main w).trace.any Event.isOpen = false ∧
      stdoutOf (submit_main w).trace = "") := by
  cases hgs : w.getenv "SLOWGOLD_GUESSES" with
  | none =>
    rw [submit_main_unset w hgs]
    refine ⟨⟨fun h => ?_, fun ⟨gs, h, _⟩ => ?_⟩, fun _ => ⟨rfl, rfl, rfl, rfl⟩⟩
    · exact absurd h (by decide)
    · exact absurd h (by simp)
  | some gs =>
    by_cases hlen : (parse_u64_csv gs).length = 10
    · refine ⟨⟨fun _ => ⟨gs, rfl, hlen⟩, fun _ => ?_⟩, fun h => absurd ⟨gs, rfl, hlen⟩ h⟩
      rw [submit_main_accepted w gs hgs hlen]
      simp [Event.isOpen]
    · rw [submit_main_rejected w gs hgs hlen]
      refine ⟨⟨fun h => ?_, fun ⟨gs2, h, h2⟩ => ?_⟩, fun _ => ⟨rfl, rfl, rfl, rfl⟩⟩
      · exact absurd h (by simp [Event.isOpen])
      · simp only [Option.some.injEq] at h
        subst h
        exact absurd h2 hlen

/-- C9 with SLOWGOLD_GUESSES unset: status 2 and only writes to the error stream. -/
theorem C9_connects_iff_ten_guesses_witness :
    (submit_main (sampleWorld none none none 0 "")).status = 2 ∧
    (submit_main (sampleWorld none none none 0 "")).trace.all Event.isCerr = true := by
  have h := (C9_connects_iff_ten_guesses (sampleWorld none none none 0 "")).2
    (by rintro ⟨gs, h, _⟩; exact absurd h (by simp [sampleWorld]))
  exact ⟨h.1, h.2.1⟩

theorem zeroChecks_append (l1 l2 : List Event) :
    zeroChecks (l1 ++ l2) = zeroChecks l1 ++ zeroChecks l2 := by
  simp [zeroChecks]

theorem zeroChecks_spec (X : Nat) :
    zeroChecks (spec_zk_sequence X) = [([spec_final_zero X], 1)] := rfl

theorem zeroChecks_sends (l : List Nat) :
    zeroChecks (l.map (fun g => Event.send_data 0 g 8)) = [] := by
  induction l with
  | nil => rfl
  | cons a l ih =>
    have : zeroChecks (Event.send_data 0 a 8 :: l.map (fun g => Event.send_data 0 g 8))
        = zeroChecks (l.map (fun g => Event.send_data 0 g 8)) := rfl
    rw [List.map_cons, this, ih]

theorem zeroChecks_probe (w : World) :
    zeroChecks (probe_main w).trace = [([spec_final_zero (probe_X w)], 1)] := by
  rw [probe_main_eq w]
  simp only [zeroChecks_append, zeroChecks_spec]
  cases w.getenv "SLOWGOLD_X" <;> simp [zeroChecks]

theorem zeroChecks_submit (w : World) (gs : String)
    (hgs : w.getenv "SLOWGOLD_GUESSES" = some gs) (hlen : (parse_u64_csv gs).length = 10) :
    zeroChecks (submit_main w).trace = [([spec_final_zero (submit_X w)], 1)] := by
  rw [submit_main_accepted w gs hgs hlen]
  simp only [zeroChecks_append, zeroChecks_spec, zeroChecks_sends]
  simp [zeroChecks]

theorem eval_spec_final_zero {F : Type} [CommRing F] (X : Nat) (a b : List F)
    (ha : a.length = 10) (hb : b.length = 10) :
    (spec_final_zero X).eval (secrets a b) =
      (a.map (fun x => x + (X : F))).prod - (b.map (fun x => x + (X : F))).prod := by
  obtain ⟨a0, a1, a2, a3, a4, a5, a6, a7, a8, a9, rfl⟩ := length_ten a ha
  obtain ⟨b0, b1, b2, b3, b4, b5, b6, b7, b8, b9, rfl⟩ := length_ten b hb
  simp only [spec_final_zero, spec_chain, IntFp.eval, secrets, List.map_cons, List.map_nil,
    List.prod_cons, List.prod_nil]
  norm_num [List.getD]
  simp only [mul_assoc, sub_eq_add_neg]

theorem eval_arrays {F : Type} [CommRing F] (a b : List F)
    (ha : a.length = 10) (hb : b.length = 10) :
    ((List.range 10).map (fun i => IntFp.input (2 * i) 0 Party.ALICE)).map
        (IntFp.eval (secrets a b)) = a ∧
    ((List.range 10).map (fun i => IntFp.input (2 * i + 1) 0 Party.ALICE)).map
        (IntFp.eval (secrets a b)) = b := by
  obtain ⟨a0, a1, a2, a3, a4, a5, a6, a7, a8, a9, rfl⟩ := length_ten a ha
  obtain ⟨b0, b1, b2, b3, b4, b5, b6, b7, b8, b9, rfl⟩ := length_ten b hb
  constructor <;> simp [List.range, List.range.loop, IntFp.eval, secrets]

/-- C7: in both programs (the submit program once the guesses are accepted), for every
challenge and all field values `a[0..9]` held by `array1` and `b[0..9]` held by `array2`,
`batch_reveal_check_zero` is called once, on one value, and that value is the product of
the `a[i] + X` minus the product of the `b[i] + X`; it is zero whenever `b` is a
permutation of `a`. -/
theorem C7_zero_check_value {F : Type} [CommRing F] (w : World) (a b : List F)
    (ha : a.length = 10) (hb : b.length = 10) :
    (probe_arrays.1.map (IntFp.eval (secrets a b)) = a ∧
      probe_arrays.2.1.map (IntFp.eval (secrets a b)) = b ∧
      ∃ v, zeroChecks (probe_main w).trace = [([v], 1)] ∧
        v.eval (secrets a b) = (a.map (fun x => x + ((probe_X w : Nat) : F))).prod
          - (b.map (fun x => x + ((probe_X w : Nat) : F))).prod ∧
        (a.Perm b → v.eval (secrets a b) = 0)) ∧
    (∀ gs, w.getenv "SLOWGOLD_GUESSES" = some gs → (parse_u64_csv gs).length = 10 →
      submit_arrays.1.map (IntFp.eval (secrets a b)) = a ∧
      submit_arrays.2.1.map (IntFp.eval (secrets a b)) = b ∧
      ∃ v, zeroChecks (submit_main w).trace = [([v], 1)] ∧
        v.eval (secrets a b) = (a.map (fun x => x + ((submit_X w : Nat) : F))).prod
          - (b.map (fun x => x + ((submit_X w : Nat) : F))).prod ∧
        (a.Perm b → v.eval (secrets a b) = 0)) := by
  have hperm : ∀ X : Nat, a.Perm b → (spec_final_zero X).eval (secrets a b) = 0 := by
    intro X hp
    rw [eval_spec_final_zero X a b ha hb, (hp.map (fun x => x + (X : F))).prod_eq, sub_self]
  have harr := eval_arrays a b ha hb
  refine ⟨⟨?_, ?_, spec_final_zero (probe_X w), zeroChecks_probe w,
      eval_spec_final_zero _ a b ha hb, hperm _⟩,
    fun gs hgs hlen => ⟨?_, ?_, spec_final_zero (submit_X w), zeroChecks_submit w gs hgs hlen,
      eval_spec_final_zero _ a b ha hb, hperm _⟩⟩
  · rw [probe_arrays_eq]; exact harr.1
  · rw [probe_arrays_eq]; exact harr.2
  · rw [submit_arrays_eq]; exact harr.1
  · rw [submit_arrays_eq]; exact harr.2

/-- C7 over the integers with `b` the reverse of `a`: the one checked value is 0. -/
theorem C7_zero_check_value_witness :
    (zeroChecks (probe_main (sampleWorld none (some "5") none 0 "")).trace).map
      (fun c => (c.1.map (IntFp.eval
        (secrets [1, 2, 3, 4, 5, 6, 7, 8, 9, 10] [10, 9, 8, 7, 6, 5, 4, 3, 2, (1 : ℤ)])), c.2))
      = [([0], 1)] := by
  obtain ⟨v, h1, _, h3⟩ := (C7_zero_check_value (F := ℤ) (sampleWorld none (some "5") none 0 "")
    [1, 2, 3, 4, 5, 6, 7, 8, 9, 10] [10, 9, 8, 7, 6, 5, 4, 3, 2, 1] rfl rfl).1.2.2
  rw [h1]
  simp [h3 (by decide)]

theorem zk_section_shape (pre mid post : List Event) (s : Event)
    (hpre : ∀ e ∈ pre, (!e.isSetup) = true) (hs : s.isSetup = true)
    (hmid : ∀ e ∈ mid, (e != Event.finalize_zk_arith) = true) :
    zk_section (pre ++ s :: (mid ++ Event.finalize_zk_arith :: post))
      = mid.filter Event.isZkOp := by
  unfold zk_section
  rw [List.dropWhile_append_of_pos hpre, List.dropWhile_cons_of_neg (by simp [hs])]
  rw [List.drop_one, List.tail_cons, List.takeWhile_append_of_pos hmid,
    List.takeWhile_cons_of_neg (by simp)]
  simp

theorem filter_isZkOp_spec (X : Nat) :
    (spec_zk_sequence X).filter Event.isZkOp = spec_zk_sequence X := rfl

theorem ne_finalize_spec (X : Nat) :
    ∀ e ∈ spec_zk_sequence X, (e != Event.finalize_zk_arith) = true := by
  have h : (spec_zk_sequence X).all (fun e => e != Event.finalize_zk_arith) = true := rfl
  exact fun e he => List.all_eq_true.mp h e he

theorem zk_section_probe (w : World) :
    zk_section (probe_main w).trace = spec_zk_sequence (probe_X w) := by
  rw [probe_main_eq w]
  have h := zk_section_shape
    ((match w.getenv "SLOWGOLD_X" with
        | some _ => []
        | none => [Event.cin_u64 w.cin_u64])
      ++ [Event.new_ios 0 (some (hostOf w)) 31183 false])
    (spec_zk_sequence (probe_X w))
    [Event.accessor "slowgold_last_delta_u64" w.slowgold_last_delta_u64,
      Event.accessor "slowgold_last_mulcheck_seed" w.slowgold_last_mulcheck_seed,
      Event.accessor "slowgold_last_mulcheck_U" w.slowgold_last_mulcheck_U,
      Event.accessor "slowgold_last_mulcheck_V" w.slowgold_last_mulcheck_V,
      Event.accessor "slowgold_last_mulcheck_ka" w.slowgold_last_mulcheck_ka,
      Event.accessor "slowgold_last_mulcheck_kb" w.slowgold_last_mulcheck_kb,
      Event.accessor "slowgold_last_mulcheck_kc" w.slowgold_last_mulcheck_kc,
      Event.cout ("\x7b\"X\":" ++ toString (probe_X w)
        ++ ",\"delta\":" ++ toString w.slowgold_last_delta_u64
        ++ ",\"seed\":" ++ toString w.slowgold_last_mulcheck_seed
        ++ ",\"U\":" ++ toString w.slowgold_last_mulcheck_U
        ++ ",\"V\":" ++ toString w.slowgold_last_mulcheck_V
        ++ ",\"ka\":" ++ toString w.slowgold_last_mulcheck_ka
        ++ ",\"kb\":" ++ toString w.slowgold_last_mulcheck_kb
        ++ ",\"kc\":" ++ toString w.slowgold_last_mulcheck_kc
        ++ "\x7d\n"),
      Event.delete_ios 0]
    (Event.setup_zk_arith [0] 1 Party.BOB)
    (by cases w.getenv "SLOWGOLD_X" <;> simp [Event.isSetup])
    rfl (ne_finalize_spec _)
  rw [filter_isZkOp_spec] at h
  refine Eq.trans (congrArg zk_section ?_) h
  simp

theorem zk_section_submit (w : World) (gs : String)
    (hgs : w.getenv "SLOWGOLD_GUESSES" = some gs) (hlen : (parse_u64_csv gs).length = 10) :
    zk_section (submit_main w).trace = spec_zk_sequence (submit_X w) := by
  rw [submit_main_accepted w gs hgs hlen]
  have h := zk_section_shape
    [Event.cerr "[submit] start\n",
      Event.new_ios 0 (some (hostOf w)) 31183 false,
      Event.cerr "[submit] netio ready\n"]
    ([Event.cerr "[submit] setup done\n"] ++ spec_zk_sequence (submit_X w))
    ([Event.cerr "[submit] zkp done\n"]
      ++ (parse_u64_csv gs).map (fun g => Event.send_data 0 g 8)
      ++ [Event.cerr "[submit] guesses sent\n",
          Event.cerr "[submit] waiting flag...\n",
          Event.recv_data 0 46,
          Event.cerr "[submit] flag recv\n",
          Event.cout (w.recv_data 46),
          Event.delete_ios 0])
    (Event.setup_zk_arith [0] 1 Party.BOB)
    (by simp [Event.isSetup]) rfl
    (by
      intro e he
      rcases List.mem_append.mp he with h | h
      · simp at h; subst h; rfl
      · exact ne_finalize_spec _ e h)
  rw [List.filter_append, filter_isZkOp_spec] at h
  simp only [List.filter_cons, List.filter_nil, Event.isZkOp, Bool.false_eq_true, if_false,
    List.nil_append] at h
  refine Eq.trans (congrArg zk_section ?_) h
  simp

/-- C8: when the probe program and the submit program (its guesses accepted) send the same
challenge `X`, the proof-system operations each issues between `setup_zk_arith` and
`finalize_zk_arith` are the same sequence, namely twenty secret inputs (`array1[i]` then
`array2[i]`), one send of `X` as 8 bytes, the multiplication chain from public 1 (`acc1`
then `acc2` at each position) and one `batch_reveal_check_zero` call over one value. -/
theorem C8_same_zk_sequence (wp ws : World) (gs : String) (X : Nat)
    (hgs : ws.getenv "SLOWGOLD_GUESSES" = some gs) (hlen : (parse_u64_csv gs).length = 10)
    (hp : sentChallenges (probe_main wp).trace = [X])
    (hs : sentChallenges (submit_main ws).trace = [X]) :
    zk_section (probe_main wp).trace = zk_section (submit_main ws).trace ∧
    zk_section (probe_main wp).trace = spec_zk_sequence X ∧
    zk_section (submit_main ws).trace = spec_zk_sequence X := by
  rw [sentChallenges_probe] at hp
  rw [sentChallenges_submit ws gs hgs hlen] at hs
  have hp1 : probe_X wp = X := by simpa using hp
  have hs1 : submit_X ws = X := by simpa using hs
  rw [zk_section_probe, zk_section_submit ws gs hgs hlen, hp1, hs1]
  exact ⟨rfl, rfl, rfl⟩

/-- C8 with the probe program reading 9 from standard input and the submit program given
SLOWGOLD_X `011` (octal 9). -/
theorem C8_same_zk_sequence_witness :
    zk_section (probe_main (sampleWorld none none none 9 "")).trace =
      zk_section (submit_main
        (sampleWorld (some "1,2,3,4,5,6,7,8,9,10") (some "011") none 0 "")).trace := by
  have hl : (parse_u64_csv "1,2,3,4,5,6,7,8,9,10").length = 10 := by
    rw [parse_u64_csv_eq]; decide
  exact (C8_same_zk_sequence (sampleWorld none none none 9 "")
    (sampleWorld (some "1,2,3,4,5,6,7,8,9,10") (some "011") none 0 "")
    "1,2,3,4,5,6,7,8,9,10" 9 rfl hl
    (by rw [sentChallenges_probe]; rfl)
    (by rw [sentChallenges_submit _ "1,2,3,4,5,6,7,8,9,10" rfl hl]; decide)).1

theorem scanDigits_not_digit (c : Char) (t : List Char) (h : c.isDigit = false) :
    scanDigits 10 (c :: t) none = none := by
  have hnd : ¬ ('0' ≤ c ∧ c ≤ '9') := by
    intro hd
    have h1 : c.val ≥ 48 := hd.1
    have h2 : c.val ≤ 57 := hd.2
    simp [Char.isDigit, h1, h2] at h
  unfold scanDigits digitValue
  rw [if_neg hnd]
  by_cases hl : 'a' ≤ c ∧ c ≤ 'z'
  · rw [if_pos hl]
    have : ¬ (c.toNat - 'a'.toNat + 10 < 10) := by omega
    simp [this]
  · rw [if_neg hl]
    by_cases hu : 'A' ≤ c ∧ c ≤ 'Z'
    · rw [if_pos hu]
      have : ¬ (c.toNat - 'A'.toNat + 10 < 10) := by omega
      simp [this]
    · rw [if_neg hu]

theorem settleBase_not_digit (c : Char) (t : List Char) (h : c.isDigit = false) :
    settleBase 0 (c :: t) = (10, c :: t) := by
  have hc : c ≠ '0' := by
    rintro rfl
    exact absurd h (by decide)
  unfold settleBase
  split
  · next heq => simp only [List.cons.injEq] at heq; exact absurd heq.1 hc
  · next heq => simp only [List.cons.injEq] at heq; exact absurd heq.1 hc
  · simp

theorem strtoull_no_number (f : List Char) (h : beginsWithNumber f = false) :
    strtoull f 0 = 0 := by
  unfold beginsWithNumber at h
  unfold strtoull
  dsimp only
  generalize (takeSign (f.dropWhile isspace)) = p at h ⊢
  obtain ⟨negative, s⟩ := p
  cases s with
  | nil => rfl
  | cons c t =>
    have hc : c.isDigit = false := by simpa using h
    simp only [settleBase_not_digit c t hc, scanDigits_not_digit c t hc]

/-- C10: `parse_u64_csv` is total; its result has one element per non-empty maximal
comma-free segment of the input, in order, each the `strtoull` (base 0) value of its
segment, so empty fields from leading, trailing or doubled commas are skipped (`"1,,2,"`
gives `[1, 2]`), and a non-empty field holding no number (after white space and an
optional sign no digit follows) still yields one element, 0. -/
theorem C10_fields_of_parse (s : String) :
    parse_u64_csv s = ((s.toList.splitOn ',').filter (fun f => !f.isEmpty)).map
      (fun f => strtoull f 0) ∧
    (parse_u64_csv s).length = ((s.toList.splitOn ',').filter (fun f => !f.isEmpty)).length ∧
    parse_u64_csv "1,,2," = [1, 2] ∧
    (∀ f ∈ s.toList.splitOn ',', beginsWithNumber f = false → strtoull f 0 = 0) ∧
    (s.toList ≠ [] → ',' ∉ s.toList → beginsWithNumber s.toList = false →
      parse_u64_csv s = [0]) := by
  refine ⟨parse_u64_csv_eq s, ?_, ?_, fun f _ hf => strtoull_no_number f hf, ?_⟩
  · rw [parse_u64_csv_eq, List.length_map]
  · rw [parse_u64_csv_eq]; decide
  · intro hne hc hb
    rw [parse_u64_csv_eq]
    have hs : s.toList.splitOn ',' = [s.toList] := by
      unfold List.splitOn
      refine List.splitOnP_eq_single _ _ (fun x hx hx' => hc ?_)
      have hxc : x = ',' := by simpa using hx'
      exact hxc ▸ hx
    rw [hs]
    cases hl : s.toList with
    | nil => exact absurd hl hne
    | cons c t =>
      rw [hl] at hb
      simp [strtoull_no_number _ hb]

/-- C10 on the single field ` -abc`: one element, 0. -/
theorem C10_fields_of_parse_witness : parse_u64_csv " -abc" = [0] :=
  (C10_fields_of_parse " -abc").2.2.2.2 (by decide) (by decide) (by decide)

end SlowGold
